import Mathlib

/-
Verification of the status-page checker library (check_status.py).

The Python source is shallowly embedded: strings are modelled as lists of
characters, fallible operations return Option or Except, wall-clock time and
the HTTP transport are explicit parameters, and the on-disk cache is an
association list keyed by the cache key.  Standard-library collaborators
(regular-expression search, XML parsing, timestamp parsing) are modelled by
executable Lean functions over the documented subset that the program relies
on; each such model carries a doc comment naming the library function it
stands for.
-/

abbrev Chars := List Char

/-- Word character of the regular-expression class used by the status
extractor, modelled over ASCII: letters, digits and the underscore. -/
def isWordChar (c : Char) : Bool := c.isAlphanum || c = '_'

/-- The literal opening tag of the bold-emphasis pattern. -/
def strongOpen : Chars := "<strong>".data

/-- The literal closing tag of the bold-emphasis pattern. -/
def strongClose : Chars := "</strong>".data

/-- Attempt to match the pattern from re.search at the head of the
input: the opening tag, a nonempty run of word characters, the closing tag.
Returns the captured word on success. -/
def matchStrong (cs : Chars) : Option Chars :=
  if strongOpen.isPrefixOf cs = true ∧
      (cs.drop strongOpen.length).takeWhile isWordChar ≠ [] ∧
      strongClose.isPrefixOf ((cs.drop strongOpen.length).dropWhile isWordChar) = true
  then some ((cs.drop strongOpen.length).takeWhile isWordChar)
  else none

/-- Leftmost match of the bold-emphasis pattern, as re.search finds it:
scan positions left to right and take the first that matches. -/
def searchStrong : Chars → Option Chars
  | [] => none
  | c :: cs =>
    match matchStrong (c :: cs) with
    | some w => some w
    | none => searchStrong cs

/-- Embedding of extract_status_from_html: return the word captured by the
first match of the bold-emphasis pattern, or the sentinel "Unknown" when the
pattern does not occur. -/
def extract_status_from_html (html : String) : String :=
  match searchStrong html.data with
  | some w => String.mk w
  | none => "Unknown"

/-- Specification-side predicate: at position i of s the bold-emphasis
pattern matches with captured word w.  Because the character after the word
inside a complete match is the opening angle of the closing tag, which is
not a word character, this decomposition coincides with the backtracking
semantics of the regular expression. -/
def isMatchAt (s : Chars) (i : Nat) (w : Chars) : Prop :=
  w ≠ [] ∧ (∀ c ∈ w, isWordChar c = true) ∧
    (strongOpen ++ w ++ strongClose) <+: s.drop i

/-- Whitespace characters of the XML grammar. -/
def isXmlSpace (c : Char) : Bool := c = ' ' || c = '\t' || c = '\n' || c = '\r'

def skipSpace (cs : Chars) : Chars := cs.dropWhile isXmlSpace

/-- Characters allowed in modelled XML names (tags, attribute names). -/
def isNameChar (c : Char) : Bool :=
  c.isAlphanum || c = '-' || c = '_' || c = '.' || c = ':'

def parseName (cs : Chars) : Option (Chars × Chars) :=
  let n := cs.takeWhile isNameChar
  if n = [] then none else some (n, cs.dropWhile isNameChar)

/-- The five predefined XML entities; an ampersand introducing anything
else makes the document ill-formed, as it does for expat. -/
def readEntity (cs : Chars) : Option (Char × Chars) :=
  if "lt;".data.isPrefixOf cs then some ('<', cs.drop 3)
  else if "gt;".data.isPrefixOf cs then some ('>', cs.drop 3)
  else if "amp;".data.isPrefixOf cs then some ('&', cs.drop 4)
  else if "quot;".data.isPrefixOf cs then some ('"', cs.drop 5)
  else if "apos;".data.isPrefixOf cs then some (Char.ofNat 39, cs.drop 5)
  else none

/-- Quoted attribute value: characters up to the closing quote, with
entity unescaping; a raw left angle bracket is ill-formed. -/
def parseQuoted (q : Char) : Nat → Chars → Option (Chars × Chars)
  | 0, _ => none
  | _ + 1, [] => none
  | fuel + 1, c :: cs =>
    if c = q then some ([], cs)
    else if c = '<' then none
    else if c = '&' then
      match readEntity cs with
      | none => none
      | some (e, rest) =>
        match parseQuoted q fuel rest with
        | none => none
        | some (v, rest2) => some (e :: v, rest2)
    else
      match parseQuoted q fuel cs with
      | none => none
      | some (v, rest2) => some (c :: v, rest2)

def parseAttrs : Nat → Chars → Option (List (Chars × Chars) × Chars)
  | 0, _ => none
  | fuel + 1, cs =>
    match skipSpace cs with
    | [] => none
    | c :: cs1 =>
      if c = '>' || c = '/' then some ([], c :: cs1)
      else
        match parseName (c :: cs1) with
        | none => none
        | some (n, r1) =>
          match skipSpace r1 with
          | '=' :: r3 =>
            match skipSpace r3 with
            | q :: r5 =>
              if q = '"' || q = Char.ofNat 39 then
                match parseQuoted q fuel r5 with
                | none => none
                | some (v, r6) =>
                  match parseAttrs fuel r6 with
                  | none => none
                  | some (rest, r7) => some ((n, v) :: rest, r7)
              else none
            | [] => none
          | _ => none

def skipComment : Nat → Chars → Option Chars
  | 0, _ => none
  | fuel + 1, cs =>
    if "-->".data.isPrefixOf cs then some (cs.drop 3)
    else
      match cs with
      | [] => none
      | _ :: t => skipComment fuel t

def skipPi : Nat → Chars → Option Chars
  | 0, _ => none
  | fuel + 1, cs =>
    if "?>".data.isPrefixOf cs then some (cs.drop 2)
    else
      match cs with
      | [] => none
      | _ :: t => skipPi fuel t

/-- Skip the document prolog or epilog: whitespace, the XML declaration or
other processing instructions, and comments. -/
def skipProlog : Nat → Chars → Option Chars
  | 0, _ => none
  | fuel + 1, cs =>
    let cs1 := skipSpace cs
    if "<?".data.isPrefixOf cs1 then
      match skipPi fuel (cs1.drop 2) with
      | none => none
      | some cs2 => skipProlog fuel cs2
    else if "<!--".data.isPrefixOf cs1 then
      match skipComment fuel (cs1.drop 4) with
      | none => none
      | some cs2 => skipProlog fuel cs2
    else some cs1

/-- Namespace environment in scope while parsing: the default namespace and
the declared namespace abbreviations. -/
structure NsEnv where
  dfltNs : Option String
  nsMap : List (String × String)

def isXmlnsAttr (n : Chars) : Bool :=
  n == "xmlns".data || "xmlns:".data.isPrefixOf n

def updateEnv (env : NsEnv) (attrs : List (Chars × Chars)) : NsEnv :=
  attrs.foldl
    (fun e nv =>
      if nv.1 == "xmlns".data then { e with dfltNs := some (String.mk nv.2) }
      else if "xmlns:".data.isPrefixOf nv.1 then
        { e with nsMap := (String.mk (nv.1.drop 6), String.mk nv.2) :: e.nsMap }
      else e)
    env

/-- Resolve a raw tag name against the namespace environment, producing the
braced universal name ElementTree uses; an unbound namespace abbreviation
is ill-formed. -/
def resolveTag (env : NsEnv) (name : Chars) : Option String :=
  if name.contains ':' then
    match env.nsMap.find?
        (fun pu => pu.1 == String.mk (name.takeWhile (fun c => c != ':'))) with
    | some pu =>
      some ("\x7b" ++ pu.2 ++ "\x7d" ++
        String.mk ((name.dropWhile (fun c => c != ':')).drop 1))
    | none => none
  else
    match env.dfltNs with
    | some uri => some ("\x7b" ++ uri ++ "\x7d" ++ String.mk name)
    | none => some (String.mk name)

/-- Element node as ElementTree exposes it to the program: universal tag
name, non-namespace attributes, the character data before the first child
(ElementTree .text, with absent text and empty text identified, which the
program cannot distinguish through its uses of "or empty"), and the child
elements in document order. -/
inductive XmlElem : Type where
  | mk (tag : String) (attrs : List (String × String)) (text : String)
      (children : List XmlElem)

def XmlElem.tag : XmlElem → String
  | .mk t _ _ _ => t

def XmlElem.attrs : XmlElem → List (String × String)
  | .mk _ a _ _ => a

def XmlElem.text : XmlElem → String
  | .mk _ _ t _ => t

def XmlElem.children : XmlElem → List XmlElem
  | .mk _ _ _ c => c

mutual

def parseElem : Nat → NsEnv → Chars → Option (XmlElem × Chars)
  | 0, _, _ => none
  | fuel + 1, env, cs =>
    match cs with
    | '<' :: cs1 =>
      match parseName cs1 with
      | none => none
      | some (rawName, cs2) =>
        match parseAttrs (fuel + 1) cs2 with
        | none => none
        | some (attrs, cs3) =>
          let env1 := updateEnv env attrs
          match resolveTag env1 rawName with
          | none => none
          | some tag =>
            let kept := attrs.filterMap
              (fun nv =>
                if isXmlnsAttr nv.1 then none
                else some (String.mk nv.1, String.mk nv.2))
            match cs3 with
            | '/' :: '>' :: cs4 => some (XmlElem.mk tag kept "" [], cs4)
            | '>' :: cs4 =>
              match parseContent fuel env1 rawName cs4 with
              | none => none
              | some (text, children, cs5) =>
                some (XmlElem.mk tag kept (String.mk text) children, cs5)
            | _ => none
    | _ => none

/-- Content of an open element up to its matching close tag: returns the
character data preceding the first child element, the child elements, and
the rest of the input.  Character data between or after children (the
ElementTree .tail, unused by the program) is consumed and dropped. -/
def parseContent : Nat → NsEnv → Chars → Chars → Option (Chars × List XmlElem × Chars)
  | 0, _, _, _ => none
  | fuel + 1, env, openName, cs =>
    match cs with
    | [] => none
    | '<' :: '/' :: cs1 =>
      match parseName cs1 with
      | none => none
      | some (n, cs2) =>
        if n = openName then
          match skipSpace cs2 with
          | '>' :: cs3 => some ([], [], cs3)
          | _ => none
        else none
    | '<' :: '!' :: cs1 =>
      if "--".data.isPrefixOf cs1 then
        match skipComment (fuel + 1) (cs1.drop 2) with
        | none => none
        | some cs2 => parseContent fuel env openName cs2
      else none
    | '<' :: c :: cs1 =>
      match parseElem fuel env ('<' :: c :: cs1) with
      | none => none
      | some (child, cs2) =>
        match parseContent fuel env openName cs2 with
        | none => none
        | some (_, children, cs3) => some ([], child :: children, cs3)
    | ['<'] => none
    | '&' :: cs1 =>
      match readEntity cs1 with
      | none => none
      | some (e, cs2) =>
        match parseContent fuel env openName cs2 with
        | none => none
        | some (text, children, cs3) => some (e :: text, children, cs3)
    | c :: cs1 =>
      match parseContent fuel env openName cs1 with
      | none => none
      | some (text, children, cs3) => some (c :: text, children, cs3)

end

/-- Models xml.etree.ElementTree.fromstring over the XML subset the
program's feeds rely on: optional declaration, processing instructions and
comments, nested elements with attributes, character data with the five
predefined entities, and namespace resolution of element tags; DOCTYPE and
CDATA sections are outside the modelled subset.  Returns none exactly when
the input is rejected, where fromstring raises ParseError; in particular
empty input has no root element and is rejected. -/
def ET_fromstring (s : String) : Option XmlElem :=
  let cs := s.data
  let fuel := cs.length * 2 + 16
  match skipProlog fuel cs with
  | none => none
  | some cs1 =>
    match parseElem fuel { dfltNs := none, nsMap := [] } cs1 with
    | none => none
    | some (root, rest) =>
      match skipProlog fuel rest with
      | none => none
      | some rest2 => if rest2 = [] then some root else none

/-- Embedding of the Incident dataclass. -/
structure Incident where
  title : String
  link : String
  status : String
  published : String := ""
deriving DecidableEq

/-- Entry cap guarding against resource exhaustion from malicious feeds. -/
def MAX_FEED_ENTRIES : Nat := 100

def atomNS : String := "http://www.w3.org/2005/Atom"

/-- Universal (namespace-braced) tag name as ElementTree writes it. -/
def nsTag (uri loc : String) : String := "\x7b" ++ uri ++ "\x7d" ++ loc

/-- ElementTree find over direct children by tag. -/
def findChild (e : XmlElem) (tag : String) : Option XmlElem :=
  e.children.find? (fun c => c.tag == tag)

/-- ElementTree find over direct children by tag with an attribute
predicate, as in the path with the rel attribute filter. -/
def findChildWithAttr (e : XmlElem) (tag key val : String) : Option XmlElem :=
  e.children.find? (fun c => c.tag == tag &&
    ((c.attrs.find? (fun kv => kv.1 == key)).map Prod.snd == some val))

def getAttr (e : XmlElem) (key : String) : Option String :=
  (e.attrs.find? (fun kv => kv.1 == key)).map Prod.snd

/-- One Atom entry element turned into an Incident, field by field as in
parse_atom_feed: absent sub-elements degrade to the documented defaults. -/
def atomIncident (entry : XmlElem) : Incident :=
  { title :=
      match findChild entry (nsTag atomNS "title") with
      | some t => t.text
      | none => ""
    link :=
      match findChildWithAttr entry (nsTag atomNS "link") "rel" "alternate" with
      | some l => (getAttr l "href").getD ""
      | none => ""
    published :=
      match findChild entry (nsTag atomNS "published") with
      | some p => p.text
      | none => ""
    status :=
      match findChild entry (nsTag atomNS "content") with
      | some c => extract_status_from_html c.text
      | none => "Unknown" }

/-- Embedding of parse_atom_feed: reject exactly when fromstring rejects,
then collect the direct entry children of the root, stopping at the cap. -/
def parse_atom_feed (content : String) (max_entries : Nat := MAX_FEED_ENTRIES) :
    Except String (List Incident) :=
  match ET_fromstring content with
  | none => Except.error "Invalid XML"
  | some root =>
    Except.ok
      (((root.children.filter (fun c => c.tag == nsTag atomNS "entry")).take
          max_entries).map atomIncident)

/-- All item elements strictly below the given nodes, in document order, as
findall with the descendant item path yields them.  Fuelled recursion over
the nested tree; callers pass fuel exceeding the tree size (parsing a
document of n characters yields well under n nodes, each element taking at
least three characters of input). -/
def descendantItemsList : Nat → List XmlElem → List XmlElem
  | 0, _ => []
  | _ + 1, [] => []
  | fuel + 1, c :: rest =>
    (if c.tag == "item" then [c] else []) ++
      descendantItemsList fuel c.children ++ descendantItemsList fuel rest

/-- One RSS item element turned into an Incident, field by field as in
parse_rss_feed. -/
def rssIncident (item : XmlElem) : Incident :=
  { title :=
      match findChild item "title" with
      | some t => t.text
      | none => ""
    link :=
      match findChild item "link" with
      | some l => l.text
      | none => ""
    published :=
      match findChild item "pubDate" with
      | some p => p.text
      | none => ""
    status :=
      match findChild item "description" with
      | some d => extract_status_from_html d.text
      | none => "Unknown" }

/-- Embedding of parse_rss_feed: reject exactly when fromstring rejects,
then collect item elements anywhere under the root, stopping at the cap. -/
def parse_rss_feed (content : String) (max_entries : Nat := MAX_FEED_ENTRIES) :
    Except String (List Incident) :=
  match ET_fromstring content with
  | none => Except.error "Invalid XML"
  | some root =>
    Except.ok
      (((descendantItemsList (content.length + 1) root.children).take
          max_entries).map rssIncident)

def isOkB {ε α : Type} : Except ε α → Bool
  | Except.ok _ => true
  | Except.error _ => false

/-- Models str.lower over the ASCII letters the catalog uses. -/
def pyLower (s : String) : String := String.mk (s.data.map Char.toLower)

/-- Service descriptor as the TOML catalog provides it. -/
structure Service where
  name : String
  feed : String
  feed_type : String
  aliases : List String
deriving DecidableEq

/-- The services mapping: dicts preserve insertion order, so it is an
ordered association list whose keys are distinct. -/
abbrev Services := List (String × Service)

/-- Embedding of find_service: the query alone is lowercased, then a direct
key lookup is tried, then each service's aliases in iteration order. -/
def find_service (services : Services) (query : String) :
    Option (String × Service) :=
  let q := pyLower query
  match services.find? (fun kv => kv.1 == q) with
  | some kv => some (q, kv.2)
  | none => services.find? (fun kv => kv.2.aliases.contains q)

/-- Catalog fixture: lowercase canonical keys and aliases, as the shipped
configuration stores them. -/
def svcClaude : Service :=
  { name := "Claude", feed := "https://status.claude.com/history.atom",
    feed_type := "atom", aliases := ["anthropic"] }

def svcGitHub : Service :=
  { name := "GitHub", feed := "https://www.githubstatus.com/history.atom",
    feed_type := "atom", aliases := ["gh"] }

def svcCatalog : Services := [("claude", svcClaude), ("github", svcGitHub)]

/-- Catalog fixture with a non-lowercase key and alias, refuting the claim
as universally stated. -/
def svcUpper : Service :=
  { name := "Claude", feed := "https://status.claude.com/history.atom",
    feed_type := "atom", aliases := ["Anthropic"] }

/-- One cache entry.  The two backing files of a key (content file and
metadata sidecar) are modelled as one record: every write of the class
writes both together, and every claim under verification observes them only
through the class's operations. -/
structure CacheEntry where
  content : String
  etag : Option String
  fetched_at : Int
deriving DecidableEq

/-- The FeedCache backing store: one entry per key, a later store shadowing
any earlier entry for the same key. -/
abbrev Cache := List (String × CacheEntry)

/-- Embedding of FeedCache.get. -/
def FeedCache.get (cache : Cache) (key : String) : Option CacheEntry :=
  (cache.find? (fun kv => kv.1 == key)).map Prod.snd

/-- Embedding of FeedCache.get_if_fresh: absent when missing, and absent
when the age reaches max_age_seconds (half-open boundary, age equal to the
threshold already stale).  Wall-clock time is the explicit now. -/
def FeedCache.get_if_fresh (cache : Cache) (key : String)
    (max_age_seconds now : Int) : Option CacheEntry :=
  match FeedCache.get cache key with
  | none => none
  | some e => if now - e.fetched_at ≥ max_age_seconds then none else some e

/-- Embedding of FeedCache.store: persists content and metadata stamped
with the current time, fully replacing any prior entry for the key. -/
def FeedCache.store (cache : Cache) (key content : String)
    (etag : Option String) (now : Int) : Cache :=
  (key, { content := content, etag := etag, fetched_at := now }) :: cache

/-- Embedding of FeedCache.is_fresh: false when no entry exists, else the
same half-open staleness rule. -/
def FeedCache.is_fresh (cache : Cache) (key : String)
    (max_age_seconds now : Int) : Bool :=
  match FeedCache.get cache key with
  | none => false
  | some e => decide (now - e.fetched_at < max_age_seconds)

inductive FetchErr : Type where
  | tooLarge
  | httpError (code : Nat)
deriving DecidableEq

/-- What the single network exchange of a fetch_feed call yields: a
response with its declared content length, raw body bytes and ETag header,
or an HTTPError with its status code. -/
inductive HttpResult : Type where
  | success (contentLength : Option Nat) (body : List Nat) (etag : Option String)
  | httpError (code : Nat)

/-- Models bytes.decode abstractly as a total byte-to-character map; no
claim under verification depends on UTF-8 details. -/
def decodeUtf8 (bs : List Nat) : String := String.mk (bs.map Char.ofNat)

/-- Python truthiness of the cached etag: None and the empty string are
falsy, so only a nonempty etag is attached to the conditional request. -/
def truthyEtag : Option String → Option String
  | none => none
  | some t => if t = "" then none else some t

/-- Key resolution of fetch_feed: the expression with or-fallback, an
absent or empty (falsy) cache_key falling back to the url. -/
def resolveKey (cache_key : Option String) (url : String) : String :=
  match cache_key with
  | some k => if k = "" then url else k
  | none => url

/-- The fresh-cache consultation at the top of fetch_feed. -/
def freshLookup (cache : Option Cache) (key : String) (max_age now : Int) :
    Option CacheEntry :=
  match cache with
  | none => none
  | some c => FeedCache.get_if_fresh c key max_age now

/-- The etag taken from the cache before the request, as fetch_feed
computes it for the conditional-request header and the 304 re-store. -/
def cachedEtagOf (cache : Option Cache) (key : String) : Option String :=
  match cache with
  | none => none
  | some c =>
    match FeedCache.get c key with
    | none => none
    | some e => truthyEtag e.etag

/-- The size-limited body read of fetch_feed: at most max_size+1 bytes are
read; exceeding max_size fails, otherwise the decoded text is stored (when
a cache was supplied) and returned. -/
def readLimited (cache : Option Cache) (key : String) (max_size_bytes : Nat)
    (body : List Nat) (etag : Option String) (now : Int) :
    Except FetchErr String × Option Cache :=
  let content_bytes := body.take (max_size_bytes + 1)
  if content_bytes.length > max_size_bytes then
    (Except.error FetchErr.tooLarge, cache)
  else
    let content := decodeUtf8 content_bytes
    (Except.ok content,
      match cache with
      | none => none
      | some c => some (FeedCache.store c key content etag now))

/-- Embedding of fetch_feed.  The transport is the explicit resp input and
wall-clock time the explicit now; the pair returned is the call's result
together with the cache as left after the call. -/
def fetch_feed (url : String) (cache : Option Cache) (cache_key : Option String)
    (max_age_seconds : Int) (max_size_bytes : Nat) (resp : HttpResult)
    (now : Int) : Except FetchErr String × Option Cache :=
  let key := resolveKey cache_key url
  match freshLookup cache key max_age_seconds now with
  | some fresh => (Except.ok fresh.content, cache)
  | none =>
    match resp with
    | HttpResult.success contentLength body etag =>
      match contentLength with
      | some n =>
        if n > max_size_bytes then (Except.error FetchErr.tooLarge, cache)
        else readLimited cache key max_size_bytes body etag now
      | none => readLimited cache key max_size_bytes body etag now
    | HttpResult.httpError code =>
      if code = 304 then
        match cache with
        | none => (Except.error (FetchErr.httpError code), none)
        | some c =>
          match FeedCache.get c key with
          | some e =>
            (Except.ok e.content,
              some (FeedCache.store c key e.content (cachedEtagOf (some c) key) now))
          | none => (Except.error (FetchErr.httpError code), some c)
      else (Except.error (FetchErr.httpError code), cache)

/-- Cache entry fixture for the not-modified witness. -/
def entryBody : CacheEntry :=
  { content := "body", etag := some "\"e\"", fetched_at := 0 }

/-- Datetime value as the program observes it: calendar fields plus the
UTC offset in seconds, absent for a naive value. -/
structure PyDatetime where
  year : Nat
  month : Nat
  day : Nat
  hour : Nat
  minute : Nat
  second : Nat
  offset : Option Int
deriving DecidableEq

def isLeap (y : Nat) : Bool :=
  y % 4 == 0 && (y % 100 != 0 || y % 400 == 0)

def daysInMonth (y m : Nat) : Nat :=
  if m == 2 then (if isLeap y then 29 else 28)
  else if m == 4 || m == 6 || m == 9 || m == 11 then 30
  else 31

/-- Field validation of the datetime constructor; out-of-range fields make
the constructor raise, modelled as none by mkDT. -/
def validDT (y mo d h mi s : Nat) : Bool :=
  decide (1 ≤ y ∧ y ≤ 9999 ∧ 1 ≤ mo ∧ mo ≤ 12 ∧ 1 ≤ d ∧
    d ≤ daysInMonth y mo ∧ h ≤ 23 ∧ mi ≤ 59 ∧ s ≤ 59)

def mkDT (y mo d h mi s : Nat) (off : Option Int) : Option PyDatetime :=
  if validDT y mo d h mi s then
    some { year := y, month := mo, day := d, hour := h, minute := mi,
           second := s, offset := off }
  else none

def digitVal (c : Char) : Option Nat :=
  if c.isDigit then some (c.toNat - 48) else none

def parse2 : Chars → Option (Nat × Chars)
  | c1 :: c2 :: r =>
    match digitVal c1, digitVal c2 with
    | some d1, some d2 => some (d1 * 10 + d2, r)
    | _, _ => none
  | _ => none

def parse4 : Chars → Option (Nat × Chars)
  | c1 :: c2 :: c3 :: c4 :: r =>
    match digitVal c1, digitVal c2, digitVal c3, digitVal c4 with
    | some d1, some d2, some d3, some d4 =>
      some (((d1 * 10 + d2) * 10 + d3) * 10 + d4, r)
    | _, _, _, _ => none
  | _ => none

def parse1or2 : Chars → Option (Nat × Chars)
  | [c1] => (digitVal c1).map (fun d => (d, ([] : Chars)))
  | c1 :: c2 :: r =>
    match digitVal c1 with
    | none => none
    | some d1 =>
      match digitVal c2 with
      | some d2 => some (d1 * 10 + d2, r)
      | none => some (d1, c2 :: r)
  | [] => none

/-- Trailing numeric timezone of the modelled fromisoformat: exactly sign,
two digits, colon, two digits, yielding the offset in seconds. -/
def matchOffset (cs : Chars) : Option Int :=
  match cs with
  | [sgn, a, b, colon, c, d] =>
    if (sgn == '+' || sgn == '-') && colon == ':' then
      match digitVal a, digitVal b, digitVal c, digitVal d with
      | some da, some db, some dc, some dd =>
        let hh := da * 10 + db
        let mm := dc * 10 + dd
        if hh ≤ 23 ∧ mm ≤ 59 then
          let secs : Int := ((hh * 3600 + mm * 60 : Nat) : Int)
          some (if sgn == '-' then -secs else secs)
        else none
      | _, _, _, _ => none
    else none
  | _ => none

/-- Naive core of the modelled fromisoformat: date YYYY-MM-DD, then an
optional time HH:MM or HH:MM:SS introduced by T or space, with constructor
validation. -/
def parseIsoBase (cs : Chars) : Option PyDatetime :=
  match parse4 cs with
  | none => none
  | some (y, r1) =>
    match r1 with
    | '-' :: r2 =>
      match parse2 r2 with
      | none => none
      | some (mo, r3) =>
        match r3 with
        | '-' :: r4 =>
          match parse2 r4 with
          | none => none
          | some (d, r5) =>
            match r5 with
            | [] => mkDT y mo d 0 0 0 none
            | sep :: r6 =>
              if sep == 'T' || sep == ' ' then
                match parse2 r6 with
                | none => none
                | some (h, r7) =>
                  match r7 with
                  | ':' :: r8 =>
                    match parse2 r8 with
                    | none => none
                    | some (mi, r9) =>
                      match r9 with
                      | [] => mkDT y mo d h mi 0 none
                      | ':' :: r10 =>
                        match parse2 r10 with
                        | some (s, []) => mkDT y mo d h mi s none
                        | _ => none
                      | _ => none
                  | _ => none
              else none
        | _ => none
    | _ => none

/-- Models datetime.fromisoformat over the subset the program relies on:
when the final six characters form a numeric timezone the remainder is the
naive part and the offset is attached, otherwise the whole text must be a
naive date-time; none models the ValueError the library raises. -/
def fromisoformatL (cs : Chars) : Option PyDatetime :=
  if 6 ≤ cs.length then
    match matchOffset (cs.drop (cs.length - 6)) with
    | some off =>
      (parseIsoBase (cs.take (cs.length - 6))).map
        (fun d => { d with offset := some off })
    | none => parseIsoBase cs
  else parseIsoBase cs

def monthNum : String → Option Nat
  | "Jan" => some 1
  | "Feb" => some 2
  | "Mar" => some 3
  | "Apr" => some 4
  | "May" => some 5
  | "Jun" => some 6
  | "Jul" => some 7
  | "Aug" => some 8
  | "Sep" => some 9
  | "Oct" => some 10
  | "Nov" => some 11
  | "Dec" => some 12
  | _ => none

/-- Timezone token of the modelled RFC-822 dates: a four-digit signed
offset, where the special form -0000 yields a naive result as the email
utilities do, or the GMT or UT names; the outer some-none distinguishes a
parse failure from an absent offset. -/
def parseZone (cs : Chars) : Option (Option Int) :=
  match cs with
  | [sgn, a, b, c, d] =>
    if sgn == '+' || sgn == '-' then
      match digitVal a, digitVal b, digitVal c, digitVal d with
      | some da, some db, some dc, some dd =>
        let hh := da * 10 + db
        let mm := dc * 10 + dd
        if hh ≤ 23 ∧ mm ≤ 59 then
          if sgn == '-' && hh == 0 && mm == 0 then some none
          else
            let secs : Int := ((hh * 3600 + mm * 60 : Nat) : Int)
            some (some (if sgn == '-' then -secs else secs))
        else none
      | _, _, _, _ => none
    else none
  | _ =>
    if cs = "GMT".data ∨ cs = "UT".data then some (some 0) else none

def finishRfc (y mo d h mi s : Nat) (rest : Chars) : Option PyDatetime :=
  match rest with
  | [] => mkDT y mo d h mi s none
  | ' ' :: z =>
    match parseZone z with
    | none => none
    | some off => mkDT y mo d h mi s off
  | _ => none

/-- Models email.utils.parsedate_to_datetime over the subset used by RSS
dates: an optional leading comma-terminated token (the weekday), a one- or
two-digit day, an English month abbreviation, a four-digit year, HH:MM or
HH:MM:SS, and an optional zone (see parseZone); none models the error the
library raises on unparseable input. -/
def parsedateL (cs : Chars) : Option PyDatetime :=
  let cs1 :=
    match cs with
    | _ :: _ :: _ :: ',' :: ' ' :: r => r
    | _ => cs
  match parse1or2 cs1 with
  | some (d, ' ' :: r1) =>
    match r1 with
    | m1 :: m2 :: m3 :: ' ' :: r2 =>
      match monthNum (String.mk [m1, m2, m3]) with
      | none => none
      | some mo =>
        match parse4 r2 with
        | some (y, ' ' :: r3) =>
          match parse2 r3 with
          | some (h, ':' :: r4) =>
            match parse2 r4 with
            | some (mi, r5) =>
              match r5 with
              | ':' :: r6 =>
                match parse2 r6 with
                | some (s, r7) => finishRfc y mo d h mi s r7
                | none => none
              | _ => finishRfc y mo d h mi 0 r5
            | none => none
          | _ => none
        | _ => none
    | _ => none
  | _ => none

/-- The in-place reassignment of parse_timestamp: a trailing Z is replaced
by the +00:00 suffix before any parse attempt, and because the variable is
reassigned the RFC-822 attempt also sees the replaced text. -/
def zFix (cs : Chars) : Chars :=
  if cs.getLast? = some 'Z' then cs.dropLast ++ "+00:00".data else cs

/-- Embedding of parse_timestamp: empty input yields none, then ISO-8601 is
tried first and RFC-822 second on the Z-replaced text; both failing yields
none.  The embedding is total: the catch-all handlers of the source make
the function never raise. -/
def parse_timestamp (s : String) : Option PyDatetime :=
  if s.data = [] then none
  else
    match fromisoformatL (zFix s.data) with
    | some d => some d
    | none => parsedateL (zFix s.data)

/-- Days since the epoch of the proleptic Gregorian calendar (the civil
day-count algorithm); all constructed datetimes have year at least one, so
every intermediate quantity is nonnegative. -/
def daysFromCivil (y m d : Nat) : Int :=
  let yAdj : Int := if m ≤ 2 then (y : Int) - 1 else (y : Int)
  let era : Int := yAdj / 400
  let yoe : Int := yAdj - era * 400
  let mp : Int := ((m : Int) + 9) % 12
  let doy : Int := (153 * mp + 2) / 5 + (d : Int) - 1
  let doe : Int := yoe * 365 + yoe / 4 - yoe / 100 + doy
  era * 146097 + doe - 719468

/-- Seconds of the naive clock reading since the epoch reference. -/
def naiveSeconds (d : PyDatetime) : Int :=
  daysFromCivil d.year d.month d.day * 86400 +
    (d.hour : Int) * 3600 + (d.minute : Int) * 60 + (d.second : Int)

/-- Models datetime subtraction in whole seconds: defined between two aware
or two naive values; mixing them raises TypeError in Python, modelled as
none. -/
def dtSub (a b : PyDatetime) : Option Int :=
  match a.offset, b.offset with
  | some oa, some ob => some ((naiveSeconds a - oa) - (naiveSeconds b - ob))
  | none, none => some (naiveSeconds a - naiveSeconds b)
  | _, _ => none

/-- Embedding of is_recent_incident: an unparseable or empty published text
is not recent; otherwise the elapsed seconds against the aware now of the
source are compared strictly against hours * 3600, the subtraction raising
(the error case) when the parsed value is naive. -/
def is_recent_incident (incident : Incident) (hours : Nat) (now : PyDatetime) :
    Except String Bool :=
  match parse_timestamp incident.published with
  | none => Except.ok false
  | some p =>
    match dtSub now p with
    | none =>
      Except.error "cannot subtract offset-naive and offset-aware datetimes"
    | some age => Except.ok (decide (age < (hours : Int) * 3600))

/-- The fixed resolution vocabulary, matched case-insensitively. -/
def RESOLVED_PATTERNS : List String :=
  ["resolved", "fixed", "closed", "completed", "recovered", "restored",
   "back to normal", "fully operational"]

/-- Substring containment, as the Python in-operator on strings. -/
def hasSubstr : Chars → Chars → Bool
  | [], pat => pat.isEmpty
  | c :: t, pat => pat.isPrefixOf (c :: t) || hasSubstr t pat

/-- Embedding of is_likely_resolved: some resolution pattern occurs in the
lowercased status text. -/
def is_likely_resolved (incident : Incident) : Bool :=
  RESOLVED_PATTERNS.any
    (fun pat => hasSubstr (pyLower incident.status).data pat.data)

/-- Embedding of is_likely_active: recently updated and not likely
resolved; a raising recency check propagates. -/
def is_likely_active (incident : Incident) (recent_hours : Nat)
    (now : PyDatetime) : Except String Bool :=
  match is_recent_incident incident recent_hours now with
  | Except.error e => Except.error e
  | Except.ok r => Except.ok (r && !is_likely_resolved incident)

/-- Fixtures for the recency witness: an incident without timestamp, one
with the spec's Atom timestamp, and an aware UTC now one hour later. -/
def incEmpty : Incident :=
  { title := "t", link := "", status := "Investigating", published := "" }

def incRecent : Incident :=
  { title := "t", link := "", status := "Investigating",
    published := "2026-02-04T17:06:50Z" }

def pFix : PyDatetime :=
  { year := 2026, month := 2, day := 4, hour := 17, minute := 6,
    second := 50, offset := some 0 }

def nowFix : PyDatetime :=
  { year := 2026, month := 2, day := 4, hour := 18, minute := 6,
    second := 50, offset := some 0 }

theorem takeWhile_append_all {α : Type} (p : α → Bool) :
    ∀ (w l : List α), (∀ c ∈ w, p c = true) →
      (∀ d, l.head? = some d → p d = false) →
      (w ++ l).takeWhile p = w ∧ (w ++ l).dropWhile p = l
  | [], l, _, hl => by
    cases l with
    | nil => exact ⟨rfl, rfl⟩
    | cons d t =>
      have hd : p d = false := hl d rfl
      simp [List.takeWhile_cons, List.dropWhile_cons, hd]
  | a :: w, l, hw, hl => by
    have ha : p a = true := hw a (by simp)
    have ih := takeWhile_append_all p w l (fun c hc => hw c (by simp [hc])) hl
    simp [List.takeWhile_cons, List.dropWhile_cons, ha, ih.1, ih.2]

theorem strong_decomp (cs w : Chars) (hword : ∀ c ∈ w, isWordChar c = true)
    (hpre : (strongOpen ++ (w ++ strongClose)) <+: cs) :
    strongOpen.isPrefixOf cs = true ∧
    (cs.drop strongOpen.length).takeWhile isWordChar = w ∧
    strongClose.isPrefixOf ((cs.drop strongOpen.length).dropWhile isWordChar) = true := by
  obtain ⟨r, hr⟩ := hpre
  have hcs : cs = strongOpen ++ (w ++ (strongClose ++ r)) := by
    rw [← hr]; simp [List.append_assoc]
  have hdrop : cs.drop strongOpen.length = w ++ (strongClose ++ r) := by
    rw [hcs, List.drop_left]
  have hta := takeWhile_append_all isWordChar w (strongClose ++ r) hword
    (fun d hd => by
      have hh : (strongClose ++ r).head? = some '<' := rfl
      rw [hh] at hd
      rw [(Option.some_inj.mp hd).symm]
      decide)
  refine ⟨?_, ?_, ?_⟩
  · rw [List.isPrefixOf_iff_prefix, hcs]; exact List.prefix_append _ _
  · rw [hdrop]; exact hta.1
  · rw [List.isPrefixOf_iff_prefix, hdrop, hta.2]; exact List.prefix_append _ _

theorem strong_compose (cs : Chars) (hp : strongOpen.isPrefixOf cs = true)
    (hc : strongClose.isPrefixOf ((cs.drop strongOpen.length).dropWhile isWordChar) = true) :
    (strongOpen ++ ((cs.drop strongOpen.length).takeWhile isWordChar ++ strongClose)) <+: cs := by
  rw [List.isPrefixOf_iff_prefix] at hp hc
  obtain ⟨t1, ht1⟩ := hp
  obtain ⟨t3, ht3⟩ := hc
  have hd : cs.drop strongOpen.length = t1 := by rw [← ht1, List.drop_left]
  rw [hd] at ht3
  refine ⟨t3, ?_⟩
  rw [hd, ← ht1]
  calc strongOpen ++ (t1.takeWhile isWordChar ++ strongClose) ++ t3
      = strongOpen ++ (t1.takeWhile isWordChar ++ (strongClose ++ t3)) := by
        simp [List.append_assoc]
    _ = strongOpen ++ (t1.takeWhile isWordChar ++ t1.dropWhile isWordChar) := by rw [ht3]
    _ = strongOpen ++ t1 := by rw [List.takeWhile_append_dropWhile]

theorem matchStrong_eq_some_iff (cs w : Chars) :
    matchStrong cs = some w ↔
      w ≠ [] ∧ (∀ c ∈ w, isWordChar c = true) ∧
        (strongOpen ++ (w ++ strongClose)) <+: cs := by
  unfold matchStrong
  split
  case isTrue h =>
    obtain ⟨h1, h2, h3⟩ := h
    constructor
    · intro hw
      have hw' := Option.some_inj.mp hw
      subst hw'
      exact ⟨h2, fun c hc => List.mem_takeWhile_imp hc, strong_compose cs h1 h3⟩
    · rintro ⟨hne, hword, hpre⟩
      have hd := strong_decomp cs w hword hpre
      rw [hd.2.1]
  case isFalse h =>
    constructor
    · intro hw; simp at hw
    · rintro ⟨hne, hword, hpre⟩
      have hd := strong_decomp cs w hword hpre
      exact absurd ⟨hd.1, by rw [hd.2.1]; exact hne, hd.2.2⟩ h

theorem isMatchAt_zero (s w : Chars) : isMatchAt s 0 w ↔ matchStrong s = some w := by
  rw [matchStrong_eq_some_iff]
  unfold isMatchAt
  simp [List.append_assoc]

theorem isMatchAt_succ (c : Char) (cs : Chars) (i : Nat) (w : Chars) :
    isMatchAt (c :: cs) (i + 1) w ↔ isMatchAt cs i w := by
  unfold isMatchAt
  rw [List.drop_succ_cons]

theorem searchStrong_spec (cs : Chars) :
    (searchStrong cs = none ∧ ∀ i w, ¬ isMatchAt cs i w) ∨
    (∃ i w, isMatchAt cs i w ∧ searchStrong cs = some w ∧
      ∀ j v, isMatchAt cs j v → i ≤ j) := by
  induction cs with
  | nil =>
    left
    refine ⟨rfl, fun i w hm => ?_⟩
    obtain ⟨hne, _, hpre⟩ := hm
    rw [List.drop_nil, List.prefix_nil] at hpre
    have hlen := congrArg List.length hpre
    simp only [List.length_append, List.length_nil] at hlen
    have h8 : strongOpen.length = 8 := by decide
    omega
  | cons c cs ih =>
    cases h : matchStrong (c :: cs) with
    | some w =>
      right
      exact ⟨0, w, (isMatchAt_zero _ _).mpr h, by simp [searchStrong, h],
        fun j v _ => Nat.zero_le j⟩
    | none =>
      have hs : searchStrong (c :: cs) = searchStrong cs := by simp [searchStrong, h]
      have h0 : ∀ v, ¬ isMatchAt (c :: cs) 0 v := fun v hv => by
        rw [isMatchAt_zero] at hv
        rw [hv] at h
        exact Option.noConfusion h
      rcases ih with ⟨hn, hnone⟩ | ⟨i, w, hm, he, hmin⟩
      · left
        refine ⟨by rw [hs, hn], fun i w hm => ?_⟩
        match i with
        | 0 => exact h0 w hm
        | Nat.succ j => exact hnone j w ((isMatchAt_succ _ _ _ _).mp hm)
      · right
        refine ⟨i + 1, w, (isMatchAt_succ _ _ _ _).mpr hm, by rw [hs]; exact he,
          fun j v hj => ?_⟩
        match j with
        | 0 => exact absurd hj (h0 v)
        | Nat.succ j' =>
          exact Nat.succ_le_succ (hmin j' v ((isMatchAt_succ _ _ _ _).mp hj))

/-- C1: extract_status_from_html returns the word of the first (leftmost)
bold-emphasis match in the input, the sentinel "Unknown" when no match
exists (in particular on empty input), and later matches are ignored; the
spec examples evaluate as stated. -/
theorem extract_status_first_bold :
    (∀ s : String,
      (extract_status_from_html s = "Unknown" ∧ ∀ i w, ¬ isMatchAt s.data i w) ∨
      (∃ i w, isMatchAt s.data i w ∧ extract_status_from_html s = String.mk w ∧
        ∀ j v, isMatchAt s.data j v → i ≤ j)) ∧
    extract_status_from_html
        "<strong>Investigating</strong> then <strong>Resolved</strong>" =
      "Investigating" ∧
    extract_status_from_html "<p>No status here</p>" = "Unknown" ∧
    extract_status_from_html "" = "Unknown" := by
  refine ⟨fun s => ?_, by decide, by decide, rfl⟩
  rcases searchStrong_spec s.data with ⟨hn, hnone⟩ | ⟨i, w, hm, he, hmin⟩
  · left
    exact ⟨by unfold extract_status_from_html; rw [hn], hnone⟩
  · right
    exact ⟨i, w, hm, by unfold extract_status_from_html; rw [he], hmin⟩

/-- Witness for C1: the characterization applied at a concrete input. -/
theorem extract_status_first_bold_witness :
    (extract_status_from_html "a" = "Unknown" ∧ ∀ i w, ¬ isMatchAt "a".data i w) ∨
    (∃ i w, isMatchAt "a".data i w ∧ extract_status_from_html "a" = String.mk w ∧
      ∀ j v, isMatchAt "a".data j v → i ≤ j) :=
  extract_status_first_bold.1 "a"

/-- C4: each parser fails exactly when fromstring rejects the content (the
content is empty or not well-formed markup; ET_fromstring rejects empty
input), a well-formed feed with zero entry or item elements yields the
empty list rather than an error, and a failure carries no partial result by
construction of the error case. -/
theorem feed_parse_error_iff :
    (∀ content n,
      (isOkB (parse_atom_feed content n) = false ↔ ET_fromstring content = none) ∧
      (isOkB (parse_rss_feed content n) = false ↔ ET_fromstring content = none)) ∧
    ET_fromstring "" = none ∧
    (∀ content n root, ET_fromstring content = some root →
      root.children.filter (fun c => c.tag == nsTag atomNS "entry") = [] →
      parse_atom_feed content n = Except.ok []) ∧
    (∀ content n root, ET_fromstring content = some root →
      descendantItemsList (content.length + 1) root.children = [] →
      parse_rss_feed content n = Except.ok []) := by
  refine ⟨fun content n => ⟨?_, ?_⟩, rfl, ?_, ?_⟩
  · unfold parse_atom_feed
    cases h : ET_fromstring content with
    | none => simp [isOkB]
    | some root => simp [isOkB]
  · unfold parse_rss_feed
    cases h : ET_fromstring content with
    | none => simp [isOkB]
    | some root => simp [isOkB]
  · intro content n root hroot hempty
    unfold parse_atom_feed
    rw [hroot]
    simp [hempty]
  · intro content n root hroot hempty
    unfold parse_rss_feed
    rw [hroot]
    simp [hempty]

/-- Witness for C4: concrete malformed, empty and zero-entry feeds. -/
theorem feed_parse_error_iff_witness :
    isOkB (parse_atom_feed "" MAX_FEED_ENTRIES) = false ∧
    isOkB (parse_rss_feed "not valid xml <<<<" MAX_FEED_ENTRIES) = false ∧
    parse_atom_feed "<feed xmlns=\"http://www.w3.org/2005/Atom\"></feed>"
        MAX_FEED_ENTRIES = Except.ok [] ∧
    parse_rss_feed "<rss><channel></channel></rss>" MAX_FEED_ENTRIES =
      Except.ok [] :=
  ⟨(feed_parse_error_iff.1 "" MAX_FEED_ENTRIES).1.mpr rfl,
   (feed_parse_error_iff.1 "not valid xml <<<<" MAX_FEED_ENTRIES).2.mpr rfl,
   feed_parse_error_iff.2.2.1 _ MAX_FEED_ENTRIES
     (XmlElem.mk (nsTag atomNS "feed") [] "" []) rfl rfl,
   feed_parse_error_iff.2.2.2 _ MAX_FEED_ENTRIES
     (XmlElem.mk "rss" [] "" [XmlElem.mk "channel" [] "" []]) rfl rfl⟩

/-- C5: parsing never yields more than max_entries incidents, whatever the
feed contains, and the default cap is 100. -/
theorem feed_entry_cap :
    MAX_FEED_ENTRIES = 100 ∧
    (∀ content n res, parse_atom_feed content n = Except.ok res →
      res.length ≤ n) ∧
    (∀ content n res, parse_rss_feed content n = Except.ok res →
      res.length ≤ n) := by
  refine ⟨rfl, ?_, ?_⟩
  · intro content n res h
    unfold parse_atom_feed at h
    cases hr : ET_fromstring content with
    | none => rw [hr] at h; exact Except.noConfusion h
    | some root =>
      rw [hr] at h
      have hres := Except.ok.inj h
      rw [← hres]
      simp only [List.length_map, List.length_take]
      exact Nat.min_le_left _ _
  · intro content n res h
    unfold parse_rss_feed at h
    cases hr : ET_fromstring content with
    | none => rw [hr] at h; exact Except.noConfusion h
    | some root =>
      rw [hr] at h
      have hres := Except.ok.inj h
      rw [← hres]
      simp only [List.length_map, List.length_take]
      exact Nat.min_le_left _ _

/-- Witness for C5: a two-entry feed parsed with a cap of one. -/
theorem feed_entry_cap_witness :
    ([{ title := "A", link := "", status := "Unknown", published := "" }] :
      List Incident).length ≤ 1 ∧
    MAX_FEED_ENTRIES = 100 :=
  ⟨feed_entry_cap.2.1
      "<feed xmlns=\"http://www.w3.org/2005/Atom\"><entry><title>A</title></entry><entry><title>B</title></entry></feed>"
      1 [{ title := "A", link := "", status := "Unknown", published := "" }]
      (by rfl),
   feed_entry_cap.1⟩

theorem find?_key_of_nodup (k : String) (s : Service) :
    ∀ l : Services, (l.map Prod.fst).Nodup → (k, s) ∈ l →
      l.find? (fun kv => kv.1 == k) = some (k, s)
  | [], _, hmem => absurd hmem (List.not_mem_nil _)
  | (k', s') :: t, hnd, hmem => by
    rw [List.map_cons, List.nodup_cons] at hnd
    by_cases hk : k' = k
    · subst hk
      rcases List.mem_cons.mp hmem with heq | hmem'
      · rw [List.find?_cons_of_pos _ (by simp)]
        exact congrArg some heq.symm
      · exact absurd (List.mem_map_of_mem Prod.fst hmem') hnd.1
    · rw [List.find?_cons_of_neg _ (by simp [hk])]
      rcases List.mem_cons.mp hmem with heq | hmem'
      · exact absurd (congrArg Prod.fst heq).symm hk
      · exact find?_key_of_nodup k s t hnd.2 hmem'

theorem find?_unique {α : Type} (p : α → Bool) :
    ∀ (l : List α) (a : α), a ∈ l → p a = true →
      (∀ b ∈ l, p b = true → b = a) → l.find? p = some a
  | [], a, hmem, _, _ => absurd hmem (List.not_mem_nil _)
  | c :: t, a, hmem, hpa, huniq => by
    cases hc : p c with
    | true =>
      rw [List.find?_cons_of_pos _ hc]
      exact congrArg some (huniq c (List.mem_cons_self _ _) hc)
    | false =>
      rw [List.find?_cons_of_neg _ (by simp [hc])]
      rcases List.mem_cons.mp hmem with heq | hmem'
      · rw [heq] at hpa; rw [hpa] at hc; exact Bool.noConfusion hc
      · exact find?_unique p t a hmem' hpa
          (fun b hb hpb => huniq b (List.mem_cons_of_mem _ hb) hpb)

/-- Counterexample to C3 as stated: find_service lowercases only the query,
so with a canonical key "Claude" the query "Claude" itself (differing from
the key only in letter case, namely not at all) and the query "Anthropic"
(equal to a listed alias) both fail to resolve. -/
theorem find_service_case_cex :
    find_service [("Claude", svcUpper)] "Claude" = none ∧
    find_service [("Claude", svcUpper)] "Anthropic" = none := by decide

/-- C3 amended: lookup is case-insensitive for catalogs whose keys and
aliases are stored lowercase.  A query whose lowercasing equals a canonical
key resolves to that entry; when no key matches, a query whose lowercasing
is an alias of exactly one service resolves to that service; a query whose
lowercasing matches no key and no alias yields none. -/
theorem find_service_case_insensitive (services : Services) (query : String) :
    ((services.map Prod.fst).Nodup →
      ∀ k s, (k, s) ∈ services → pyLower query = k →
        find_service services query = some (k, s)) ∧
    (∀ k s, (k, s) ∈ services → pyLower query ∈ s.aliases →
      (∀ p ∈ services, p.1 ≠ pyLower query) →
      (∀ p ∈ services, pyLower query ∈ p.2.aliases → p = (k, s)) →
      find_service services query = some (k, s)) ∧
    ((∀ p ∈ services, p.1 ≠ pyLower query ∧ pyLower query ∉ p.2.aliases) →
      find_service services query = none) := by
  refine ⟨fun hnd k s hmem hq => ?_, fun k s hmem halias hnokey huniq => ?_,
    fun hnone => ?_⟩
  · have h1 : services.find? (fun kv => kv.1 == pyLower query) = some (k, s) := by
      rw [hq]; exact find?_key_of_nodup k s services hnd hmem
    simp only [find_service, h1]
    rw [hq]
  · have h1 : services.find? (fun kv => kv.1 == pyLower query) = none :=
      List.find?_eq_none.mpr (fun p hp => by simp [hnokey p hp])
    have h2 : services.find? (fun kv => kv.2.aliases.contains (pyLower query)) =
        some (k, s) :=
      find?_unique _ services (k, s) hmem (by simpa using halias)
        (fun b hb hpb => huniq b hb (by simpa using hpb))
    simp only [find_service, h1, h2]
  · have h1 : services.find? (fun kv => kv.1 == pyLower query) = none :=
      List.find?_eq_none.mpr (fun p hp => by simp [(hnone p hp).1])
    have h2 : services.find? (fun kv => kv.2.aliases.contains (pyLower query)) =
        none :=
      List.find?_eq_none.mpr (fun p hp => by simpa using (hnone p hp).2)
    simp only [find_service, h1, h2]

/-- Witness for C3: case-varied queries against the lowercase catalog. -/
theorem find_service_case_insensitive_witness :
    find_service svcCatalog "CLAUDE" = some ("claude", svcClaude) ∧
    find_service svcCatalog "Anthropic" = some ("claude", svcClaude) ∧
    find_service svcCatalog "unknown-service" = none :=
  ⟨(find_service_case_insensitive svcCatalog "CLAUDE").1 (by decide)
      "claude" svcClaude (by decide) (by decide),
   (find_service_case_insensitive svcCatalog "Anthropic").2.1
      "claude" svcClaude (by decide) (by decide) (by decide) (by decide),
   (find_service_case_insensitive svcCatalog "unknown-service").2.2 (by decide)⟩

theorem get_store_same (cache : Cache) (key content : String)
    (etag : Option String) (now : Int) :
    FeedCache.get (FeedCache.store cache key content etag now) key =
      some { content := content, etag := etag, fetched_at := now } := by
  unfold FeedCache.get FeedCache.store
  rw [List.find?_cons_of_pos _ (by simp)]
  rfl

/-- C8: the freshness boundary is half-open: get_if_fresh yields absent
whenever the age is at least max_age (equality already stale), is_fresh is
false when no entry exists, and immediately after a store is_fresh with
max_age 0 is false while is_fresh with max_age 60 is true. -/
theorem cache_freshness_boundary :
    (∀ (cache : Cache) (key : String) (max_age now : Int) (e : CacheEntry),
      FeedCache.get cache key = some e → now - e.fetched_at ≥ max_age →
      FeedCache.get_if_fresh cache key max_age now = none) ∧
    (∀ (cache : Cache) (key : String) (max_age now : Int),
      FeedCache.get cache key = none →
      FeedCache.is_fresh cache key max_age now = false) ∧
    (∀ (cache : Cache) (key content : String) (etag : Option String) (now : Int),
      FeedCache.is_fresh (FeedCache.store cache key content etag now) key 0 now
          = false ∧
      FeedCache.is_fresh (FeedCache.store cache key content etag now) key 60 now
          = true) := by
  refine ⟨fun cache key max_age now e hget hage => ?_,
    fun cache key max_age now hget => ?_,
    fun cache key content etag now => ⟨?_, ?_⟩⟩
  · unfold FeedCache.get_if_fresh
    rw [hget]
    simp [hage]
  · unfold FeedCache.is_fresh
    rw [hget]
  · unfold FeedCache.is_fresh
    rw [get_store_same]
    simp
  · unfold FeedCache.is_fresh
    rw [get_store_same]
    simp

/-- Witness for C8: a concrete entry exactly at the boundary, a miss, and a
just-stored entry. -/
theorem cache_freshness_boundary_witness :
    FeedCache.get_if_fresh
        [("k", { content := "c", etag := none, fetched_at := 0 })] "k" 5 5 =
      none ∧
    FeedCache.is_fresh [] "k" 60 0 = false ∧
    FeedCache.is_fresh (FeedCache.store [] "k" "c" none 7) "k" 0 7 = false ∧
    FeedCache.is_fresh (FeedCache.store [] "k" "c" none 7) "k" 60 7 = true :=
  ⟨cache_freshness_boundary.1 _ "k" 5 5
      { content := "c", etag := none, fetched_at := 0 } rfl (by decide),
   cache_freshness_boundary.2.1 [] "k" 60 0 rfl,
   (cache_freshness_boundary.2.2 [] "k" "c" none 7).1,
   (cache_freshness_boundary.2.2 [] "k" "c" none 7).2⟩

/-- C9: round-trip: a store followed by a get of the same key returns
exactly the stored content and etag (stamped with the store time); the
surrounding cache is arbitrary, so any prior entry for the key is fully
shadowed by the new one. -/
theorem cache_round_trip (cache : Cache) (key content : String)
    (etag : Option String) (now : Int) :
    FeedCache.get (FeedCache.store cache key content etag now) key =
      some { content := content, etag := etag, fetched_at := now } :=
  get_store_same cache key content etag now

theorem readLimited_too_large (cache : Option Cache) (key : String)
    (max_size_bytes : Nat) (body : List Nat) (etag : Option String) (now : Int)
    (h : body.length > max_size_bytes) :
    readLimited cache key max_size_bytes body etag now =
      (Except.error FetchErr.tooLarge, cache) := by
  have hl : (body.take (max_size_bytes + 1)).length > max_size_bytes := by
    rw [List.length_take]
    omega
  simp only [readLimited]
  rw [if_pos hl]

/-- C6: when the cache holds no fresh entry (so the network is consulted)
and either the declared content length exceeds the cap or the body itself
exceeds the cap (the read being limited to max_size+1 bytes), fetch_feed
fails with the too-large error and the cache is returned exactly as it
was. -/
theorem fetch_feed_too_large (url : String) (cache : Option Cache)
    (cache_key : Option String) (max_age : Int) (max_size : Nat)
    (contentLength : Option Nat) (body : List Nat) (etag : Option String)
    (now : Int)
    (hfresh : freshLookup cache (resolveKey cache_key url) max_age now = none)
    (hbig : (∃ n, contentLength = some n ∧ n > max_size) ∨
      body.length > max_size) :
    fetch_feed url cache cache_key max_age max_size
        (HttpResult.success contentLength body etag) now =
      (Except.error FetchErr.tooLarge, cache) := by
  cases contentLength with
  | some n =>
    by_cases hn : n > max_size
    · simp [fetch_feed, hfresh, hn]
    · rcases hbig with ⟨m, hm, hmn⟩ | hbody
      · exact absurd (Option.some_inj.mp hm ▸ hmn) hn
      · simp only [fetch_feed, hfresh]
        rw [if_neg hn]
        exact readLimited_too_large cache _ max_size body etag now hbody
  | none =>
    rcases hbig with ⟨m, hm, _⟩ | hbody
    · exact Option.noConfusion hm
    · simp only [fetch_feed, hfresh]
      exact readLimited_too_large cache _ max_size body etag now hbody

/-- Witness for C6: an empty cache, a four-byte body against a cap of
three. -/
theorem fetch_feed_too_large_witness :
    fetch_feed "u" (some []) none 60 3
        (HttpResult.success none [1, 2, 3, 4] none) 0 =
      (Except.error FetchErr.tooLarge, some []) :=
  fetch_feed_too_large "u" (some []) none 60 3 none [1, 2, 3, 4] none 0 rfl
    (Or.inr (by decide))

/-- C7: on a not-modified (HTTP 304) answer after the fresh-cache check
misses: with a cache entry present, fetch_feed re-stores the entry's
content under the key stamped at the current time (hence fresh again) and
returns that content; with a cache but no entry for the key, or with no
cache at all, the transport error propagates and the cache is unchanged. -/
theorem fetch_feed_not_modified (url : String) (cache_key : Option String)
    (max_age : Int) (max_size : Nat) (now : Int) :
    (∀ (c : Cache) (e : CacheEntry),
      freshLookup (some c) (resolveKey cache_key url) max_age now = none →
      FeedCache.get c (resolveKey cache_key url) = some e →
      fetch_feed url (some c) cache_key max_age max_size
          (HttpResult.httpError 304) now =
        (Except.ok e.content,
          some (FeedCache.store c (resolveKey cache_key url) e.content
            (cachedEtagOf (some c) (resolveKey cache_key url)) now))) ∧
    (∀ c : Cache,
      freshLookup (some c) (resolveKey cache_key url) max_age now = none →
      FeedCache.get c (resolveKey cache_key url) = none →
      fetch_feed url (some c) cache_key max_age max_size
          (HttpResult.httpError 304) now =
        (Except.error (FetchErr.httpError 304), some c)) ∧
    (fetch_feed url none cache_key max_age max_size
        (HttpResult.httpError 304) now =
      (Except.error (FetchErr.httpError 304), none)) := by
  refine ⟨fun c e hfr hget => ?_, fun c hfr hget => ?_, ?_⟩
  · simp [fetch_feed, hfr, hget]
  · simp [fetch_feed, hfr, hget]
  · simp [fetch_feed, freshLookup]

/-- Witness for C7: a stale singleton cache, hit and miss keys, and the
cacheless case. -/
theorem fetch_feed_not_modified_witness :
    fetch_feed "u" (some [("u", entryBody)]) none 60 1024
        (HttpResult.httpError 304) 60 =
      (Except.ok "body",
        some (FeedCache.store [("u", entryBody)] "u" "body"
          (some "\"e\"") 60)) ∧
    fetch_feed "v" (some []) none 60 1024 (HttpResult.httpError 304) 60 =
      (Except.error (FetchErr.httpError 304), some []) ∧
    fetch_feed "u" none none 60 1024 (HttpResult.httpError 304) 60 =
      (Except.error (FetchErr.httpError 304), none) :=
  ⟨by
    have h := (fetch_feed_not_modified "u" none 60 1024 60).1
      [("u", entryBody)] entryBody (by decide) rfl
    simpa using h,
   (fetch_feed_not_modified "v" none 60 1024 60).2.1 [] rfl rfl,
   (fetch_feed_not_modified "u" none 60 1024 60).2.2⟩

theorem string_eq_empty_of_data (s : String) (h : s.data = []) : s = "" := by
  cases s with
  | mk data => simp_all

theorem fromiso_offset_utc (a : Chars) (d : PyDatetime)
    (h : fromisoformatL (a ++ "+00:00".data) = some d) : d.offset = some 0 := by
  have hlen : (a ++ "+00:00".data).length = a.length + 6 := by
    simp [List.length_append]
  have h6 : 6 ≤ (a ++ "+00:00".data).length := by omega
  have hdrop : (a ++ "+00:00".data).drop ((a ++ "+00:00".data).length - 6) =
      "+00:00".data := by
    rw [hlen, Nat.add_sub_cancel]
    exact List.drop_left a _
  unfold fromisoformatL at h
  rw [if_pos h6, hdrop] at h
  simp only [show matchOffset "+00:00".data = some 0 from rfl] at h
  obtain ⟨b, _, hbd⟩ := Option.map_eq_some'.mp h
  rw [← hbd]

/-- Counterexample to C2 as stated: the timestamp 2026-02-04T17:06:50 is
parseable (fromisoformat accepts it) yet carries no zone designator, so
parse_timestamp returns a naive instant, not a timezone-aware one. -/
theorem parse_timestamp_naive_cex :
    parse_timestamp "2026-02-04T17:06:50" =
      some { year := 2026, month := 2, day := 4, hour := 17, minute := 6,
             second := 50, offset := none } := by decide

/-- C2 amended: parse_timestamp is total (never raises), empty input yields
none, the ISO-8601 attempt on the Z-replaced text is tried first and its
success returned, failure of it hands the same text to the RFC-822 attempt
(so failure of both yields none), and a successfully ISO-parsed input with
trailing Z is timezone-aware with UTC offset zero.  As amended, inputs
parseable without any zone designator yield a naive instant (see the
counterexample); inputs carrying a designator yield aware ones. -/
theorem parse_timestamp_spec :
    parse_timestamp "" = none ∧
    (∀ (s : String) (d : PyDatetime), s ≠ "" →
      fromisoformatL (zFix s.data) = some d → parse_timestamp s = some d) ∧
    (∀ s : String, s ≠ "" → fromisoformatL (zFix s.data) = none →
      parse_timestamp s = parsedateL (zFix s.data)) ∧
    (∀ (s : String) (d : PyDatetime), s.data.getLast? = some 'Z' →
      fromisoformatL (zFix s.data) = some d → d.offset = some 0) := by
  refine ⟨rfl, fun s d hs hiso => ?_, fun s hs hiso => ?_, fun s d hz hiso => ?_⟩
  · have hne : ¬ s.data = [] := fun h => hs (string_eq_empty_of_data s h)
    simp only [parse_timestamp, hne, if_false, hiso]
  · have hne : ¬ s.data = [] := fun h => hs (string_eq_empty_of_data s h)
    simp only [parse_timestamp, hne, if_false, hiso]
  · rw [zFix, if_pos hz] at hiso
    exact fromiso_offset_utc s.data.dropLast d hiso

/-- Witness for C2: the spec's Z-form Atom timestamp, an RSS RFC-822 date,
and unparseable input. -/
theorem parse_timestamp_spec_witness :
    parse_timestamp "2026-02-04T17:06:50Z" =
      some { year := 2026, month := 2, day := 4, hour := 17, minute := 6,
             second := 50, offset := some 0 } ∧
    parse_timestamp "Wed, 04 Feb 2026 17:06:50 +0000" =
      some { year := 2026, month := 2, day := 4, hour := 17, minute := 6,
             second := 50, offset := some 0 } ∧
    parse_timestamp "not a date" = none ∧
    (some 0 : Option Int) = some 0 :=
  ⟨parse_timestamp_spec.2.1 "2026-02-04T17:06:50Z" _ (by decide) (by decide),
   (parse_timestamp_spec.2.2.1 "Wed, 04 Feb 2026 17:06:50 +0000" (by decide)
     (by decide)).trans (by decide),
   (parse_timestamp_spec.2.2.1 "not a date" (by decide) (by decide)).trans
     (by decide),
   parse_timestamp_spec.2.2.2 "2026-02-04T17:06:50Z"
     { year := 2026, month := 2, day := 4, hour := 17, minute := 6,
       second := 50, offset := some 0 } (by decide) (by decide)⟩

/-- Counterexample to C10 as stated: a parseable timestamp without zone
information makes is_recent_incident raise (aware now minus naive parse)
rather than return the strict-inequality verdict. -/
theorem is_recent_naive_cex :
    parse_timestamp "2026-02-04T17:06:50" =
      some { year := 2026, month := 2, day := 4, hour := 17, minute := 6,
             second := 50, offset := none } ∧
    is_recent_incident
        { title := "t", link := "", status := "Investigating",
          published := "2026-02-04T17:06:50" } 4
        { year := 2026, month := 2, day := 4, hour := 18, minute := 0,
          second := 0, offset := some 0 } =
      Except.error "cannot subtract offset-naive and offset-aware datetimes" :=
  ⟨by decide, by rfl⟩

/-- C10 amended: an incident whose published text is empty or unparseable
is neither recent nor likely active (conservative default); an incident
whose published text parses to an aware instant, compared against the
aware UTC now the source constructs, is recent exactly when the elapsed
seconds are strictly below hours * 3600.  As amended: a parseable but
naive timestamp raises instead (see the counterexample). -/
theorem is_recent_classification (incident : Incident) (hours : Nat)
    (now : PyDatetime) :
    (parse_timestamp incident.published = none →
      is_recent_incident incident hours now = Except.ok false ∧
      is_likely_active incident hours now = Except.ok false) ∧
    (∀ p : PyDatetime, parse_timestamp incident.published = some p →
      p.offset.isSome = true → now.offset = some 0 →
      ∃ age : Int, dtSub now p = some age ∧
        (is_recent_incident incident hours now = Except.ok true ↔
          age < (hours : Int) * 3600) ∧
        (is_recent_incident incident hours now = Except.ok false ↔
          ¬ age < (hours : Int) * 3600)) := by
  constructor
  · intro hp
    constructor
    · simp only [is_recent_incident, hp]
    · simp only [is_likely_active, is_recent_incident, hp, Bool.false_and]
  · intro p hp hoff hnow
    obtain ⟨op, hop⟩ := Option.isSome_iff_exists.mp hoff
    have hsub : dtSub now p =
        some ((naiveSeconds now - 0) - (naiveSeconds p - op)) := by
      unfold dtSub
      rw [hnow, hop]
    have hrec : is_recent_incident incident hours now =
        Except.ok (decide
          ((naiveSeconds now - 0) - (naiveSeconds p - op) <
            (hours : Int) * 3600)) := by
      simp only [is_recent_incident, hp, hsub]
    refine ⟨(naiveSeconds now - 0) - (naiveSeconds p - op), hsub, ?_, ?_⟩
    · rw [hrec]
      by_cases hlt :
          (naiveSeconds now - 0) - (naiveSeconds p - op) < (hours : Int) * 3600
      · simp [hlt]
      · simp [hlt]
    · rw [hrec]
      by_cases hlt :
          (naiveSeconds now - 0) - (naiveSeconds p - op) < (hours : Int) * 3600
      · simp [hlt]
      · simp [hlt]

/-- Witness for C10: the empty-timestamp defaults and a one-hour-old
aware incident being recent within four hours. -/
theorem is_recent_classification_witness :
    is_recent_incident incEmpty 4 nowFix = Except.ok false ∧
    is_likely_active incEmpty 4 nowFix = Except.ok false ∧
    is_recent_incident incRecent 4 nowFix = Except.ok true := by
  have h1 := (is_recent_classification incEmpty 4 nowFix).1 rfl
  obtain ⟨age, hsub, hiff, _⟩ :=
    (is_recent_classification incRecent 4 nowFix).2 pFix (by decide) rfl rfl
  have hage : age = 3600 := by
    have hd : dtSub nowFix pFix = some 3600 := by decide
    rw [hd] at hsub
    exact (Option.some_inj.mp hsub).symm
  exact ⟨h1.1, h1.2, hiff.mpr (by rw [hage]; decide)⟩
